import Mathlib

/-
  Verification of the chamcall meeting lifecycle and signaling coordinator.

  Shallow embedding of the backend source:
  - roomIdGenerator (generateUniqueRoomId, reserve on the RoomIdTracker ledger)
  - meetingService (createMeeting, canJoinMeeting, joinMeeting, leaveMeeting)
  - meetingRepository.updateStatus, participantRepository (add, updateStatus,
    markAllLeft, countInMeeting, getActiveInMeeting)
  - socket relay (join room, emit to room excluding sender)
  - webhook dispatcher (signature headers, bounded retry schedule)

  The durable store is modelled as explicit lists threaded through each
  operation; Mongo findOneAndUpdate updates the first matching record and,
  unlike document save, does not run pre-save hooks. Dates are epoch
  milliseconds as Int.
-/

namespace Chamcall

/-- Update the first element of a list satisfying `p` by `f`, as Mongo
findOneAndUpdate does on the first matching document. -/
def updateFirst (p : α → Bool) (f : α → α) : List α → List α
  | [] => []
  | x :: xs => if p x then f x :: xs else x :: updateFirst p f xs

/- ### Identifier allocator (utils/roomIdGenerator.js, models/RoomIdTracker.js) -/

/-- One row of the room_id_tracker collection. -/
structure Reservation where
  roomId : String
  appId : String
deriving DecidableEq

/-- Whether the ledger already holds a reservation for this roomId; this is
the unique index on roomId in RoomIdTrackerSchema. -/
def ledgerHas (ledger : List Reservation) (roomId : String) : Bool :=
  ledger.any (fun r => r.roomId == roomId)

/-- RoomIdTrackerSchema.statics.reserve: an atomic insert that succeeds iff
no document with this roomId exists; a duplicate-key conflict returns
success false and leaves the ledger unchanged. -/
def reserve (ledger : List Reservation) (roomId appId : String) :
    Bool × List Reservation :=
  if ledgerHas ledger roomId then (false, ledger)
  else (true, ledger ++ [⟨roomId, appId⟩])

/-- The retry loop of generateUniqueRoomId: `gen k` is the candidate drawn on
the (k+1)-th attempt (abstracting Math.random), `fuel` the remaining
attempts. A failed reservation is a collision and triggers regeneration;
running out of fuel models the thrown exhaustion error (`none`). -/
def generateRoomIdLoop (gen : Nat → String) (appId : String) :
    Nat → Nat → List Reservation → Option String × List Reservation
  | 0, _, ledger => (none, ledger)
  | Nat.succ fuel, attempt, ledger =>
    let roomId := gen attempt
    match reserve ledger roomId appId with
    | (true, ledger2) => (some roomId, ledger2)
    | (false, ledger2) => generateRoomIdLoop gen appId fuel (attempt + 1) ledger2

/-- generateUniqueRoomId(appId, maxAttempts): runs the retry loop starting at
attempt 0 against the current ledger. The source default for maxAttempts
is 10. -/
def generateUniqueRoomId (gen : Nat → String) (appId : String)
    (ledger : List Reservation) (maxAttempts : Nat) :
    Option String × List Reservation :=
  generateRoomIdLoop gen appId maxAttempts 0 ledger

/- ### Data model (models/Meeting via meetingService usage, models/Participant.js) -/

/-- Meeting.settings with the defaults applied by createMeeting. -/
structure MeetingSettings where
  allowAnonymous : Bool
  waitingRoomEnabled : Bool
  recordingEnabled : Bool
  maxParticipants : Nat
deriving DecidableEq

/-- The fields of a Meeting document that the service layer reads or writes. -/
structure Meeting where
  meetingId : String
  appId : String
  createdBy : String
  title : String
  status : String
  scheduledAt : Option Int
  durationMinutes : Nat
  expiresAt : Option Int
  startedAt : Option Int
  endedAt : Option Int
  settings : MeetingSettings
deriving DecidableEq

/-- The fields of a Participant document that the service layer reads or
writes. joinedAt always holds a value (schema default Date.now). -/
structure Participant where
  meetingId : String
  appId : String
  userId : String
  name : String
  role : String
  status : String
  joinedAt : Int
  connectedAt : Option Int
  leftAt : Option Int
  durationSeconds : Int
deriving DecidableEq

/-- The durable store: the meetings and participants collections. -/
structure Store where
  meetings : List Meeting
  participants : List Participant
deriving DecidableEq

/-- ParticipantSchema status values counted as active. -/
def isActiveStatus (s : String) : Bool := s == "joined" || s == "connected"

/-- The participant filter used by findOneAndUpdate and findOne:
document key is the (meetingId, userId) pair. -/
def participantKey (mid uid : String) (p : Participant) : Bool :=
  p.meetingId == mid && p.userId == uid

/- ### Repositories (meetingRepository.js, participantRepository.js) -/

/-- meetingRepository.findByMeetingId: findOne on meetingId. -/
def findByMeetingId (st : Store) (mid : String) : Option Meeting :=
  st.meetings.find? (fun m => m.meetingId == mid)

/-- The update document built by meetingRepository.updateStatus applied to
one meeting: sets status, startedAt when moving to active, and endedAt when
moving to completed (from the explicit field when the caller passed one). -/
def meetingApplyStatus (now : Int) (status : String) (endedAtArg : Option Int)
    (m : Meeting) : Meeting :=
  { m with
    status := status,
    startedAt := if status == "active" then some now else m.startedAt,
    endedAt :=
      match endedAtArg with
      | some e => some e
      | none => if status == "completed" then some now else m.endedAt }

/-- meetingRepository.updateStatus: findOneAndUpdate on meetingId with the
$set document above (first matching document only). -/
def meetingRepoUpdateStatus (st : Store) (now : Int) (mid status : String)
    (endedAtArg : Option Int) : Store :=
  { st with
    meetings := updateFirst (fun m => m.meetingId == mid)
      (meetingApplyStatus now status endedAtArg) st.meetings }

/-- The update document built by participantRepository.updateStatus applied
to one participant: sets status, stamps connectedAt on connect and leftAt on
leave (from the explicit field when the caller passed one). A $set through
findOneAndUpdate does not run the pre-save hook, so durationSeconds is not
recomputed here. -/
def participantApplyStatus (now : Int) (status : String)
    (leftAtArg : Option Int) (p : Participant) : Participant :=
  { p with
    status := status,
    connectedAt := if status == "connected" then some now else p.connectedAt,
    leftAt :=
      match leftAtArg with
      | some t => some t
      | none => if status == "left" then some now else p.leftAt }

/-- participantRepository.updateStatus: findOneAndUpdate on the
(meetingId, userId) key (first matching document only). -/
def participantRepoUpdateStatus (st : Store) (now : Int) (mid uid status : String)
    (leftAtArg : Option Int) : Store :=
  { st with
    participants := updateFirst (participantKey mid uid)
      (participantApplyStatus now status leftAtArg) st.participants }

/-- ParticipantSchema pre-save hook: when leftAt is present, durationSeconds
becomes floor((leftAt - joinedAt) / 1000). Runs only on document save. -/
def participantPreSave (p : Participant) : Participant :=
  match p.leftAt with
  | some l => { p with durationSeconds := Int.fdiv (l - p.joinedAt) 1000 }
  | none => p

/-- participantRepository.add: builds a new Participant document with the
schema defaults and saves it (so the pre-save hook runs). -/
def participantRepoAdd (st : Store) (now : Int)
    (mid appId uid name role status : String) : Store :=
  let p : Participant :=
    { meetingId := mid, appId := appId, userId := uid, name := name,
      role := role, status := status, joinedAt := now, connectedAt := none,
      leftAt := none, durationSeconds := 0 }
  { st with participants := st.participants ++ [participantPreSave p] }

/-- ParticipantSchema.statics.getActiveInMeeting: participants of the meeting
whose status is joined or connected. -/
def getActiveInMeeting (st : Store) (mid : String) : List Participant :=
  st.participants.filter (fun p => p.meetingId == mid && isActiveStatus p.status)

/-- participantRepository.countInMeeting with activeOnly: countDocuments on
meetingId with status in [joined, connected]. -/
def countInMeetingActive (st : Store) (mid : String) : Nat :=
  (st.participants.filter
    (fun p => p.meetingId == mid && isActiveStatus p.status)).length

/-- participantRepository.markAllLeft: updateMany setting status left and
leftAt on every active participant of the meeting (no pre-save hook). -/
def markAllLeft (st : Store) (now : Int) (mid : String) : Store :=
  { st with
    participants := st.participants.map (fun p =>
      if p.meetingId == mid && isActiveStatus p.status then
        { p with status := "left", leftAt := some now }
      else p) }

/- ### Meeting service (services/meetingService.js) -/

/-- The statuses canJoinMeeting accepts. -/
def validJoinStatuses : List String := ["created", "scheduled", "active"]

/-- Result shape of canJoinMeeting (the meeting echo on success is dropped
here; claims only inspect allowed and reason). -/
structure CanJoinResult where
  allowed : Bool
  reason : Option String
deriving DecidableEq

/-- The fallback `meeting.settings?.maxParticipants || 100` of
canJoinMeeting: a falsy (zero) limit becomes 100. -/
def effectiveMaxParticipants (m : Meeting) : Nat :=
  if m.settings.maxParticipants == 0 then 100 else m.settings.maxParticipants

/-- The participant-limit check of canJoinMeeting: maxParticipants falls back
to 100 when falsy, the check only runs for a limit strictly between 0 and
100, and it counts active participants excluding the requesting userId. -/
def canJoinCapacityCheck (st : Store) (m : Meeting) (mid : String)
    (userId : Option String) : CanJoinResult :=
  let maxParticipants := effectiveMaxParticipants m
  if 0 < maxParticipants && maxParticipants < 100 then
    let activeParticipants : List Participant := getActiveInMeeting st mid
    let otherParticipants : List Participant :=
      match userId with
      | some uid => activeParticipants.filter (fun p => p.userId != uid)
      | none => activeParticipants
    if maxParticipants ≤ otherParticipants.length then
      { allowed := false, reason := some "Meeting is full" }
    else { allowed := true, reason := none }
  else { allowed := true, reason := none }

/-- The expiry test of canJoinMeeting: a meeting with an expiresAt strictly
in the past is expired. -/
def meetingExpired (now : Int) (m : Meeting) : Bool :=
  match m.expiresAt with
  | some e => decide (now > e)
  | none => false

/-- MeetingService.canJoinMeeting: fails closed on unknown id, non-joinable
status, and expiry (with the lazy transition to expired as a store side
effect), then applies the capacity check. -/
def canJoinMeeting (st : Store) (now : Int) (mid : String)
    (userId : Option String) : CanJoinResult × Store :=
  match findByMeetingId st mid with
  | none => ({ allowed := false, reason := some "Meeting not found" }, st)
  | some m =>
    if validJoinStatuses.contains m.status = false then
      ({ allowed := false, reason := some ("Meeting is " ++ m.status) }, st)
    else if meetingExpired now m then
      ({ allowed := false, reason := some "Meeting has expired" },
        meetingRepoUpdateStatus st now mid "expired" none)
    else
      (canJoinCapacityCheck st m mid userId, st)

/-- Result shape of joinMeeting; on denial the service spreads the
canJoinMeeting result into the reply, on success it returns the connect
info (not inspected by the claims). -/
structure JoinResult where
  success : Bool
  allowed : Option Bool
  reason : Option String
deriving DecidableEq

/-- MeetingService.joinMeeting. `none` models a thrown exception (the only
reachable throw in the sequential model is reading the status of a missing
meeting after admission). On admission the meeting is activated on first
join, and the participant record is created, or its status reset to joined
when the (meetingId, userId) pair already exists. -/
def joinMeeting (st : Store) (now : Int) (mid uid name role : String) :
    Option (JoinResult × Store) :=
  let checked := canJoinMeeting st now mid (some uid)
  if checked.1.allowed = false then
    some ({ success := false, allowed := some false,
            reason := checked.1.reason }, checked.2)
  else
    match findByMeetingId checked.2 mid with
    | none => none
    | some m =>
      let st2 :=
        if m.status == "created" || m.status == "scheduled" then
          meetingRepoUpdateStatus checked.2 now mid "active" none
        else checked.2
      let st3 :=
        match st2.participants.find? (participantKey mid uid) with
        | some _ => participantRepoUpdateStatus st2 now mid uid "joined" none
        | none => participantRepoAdd st2 now mid m.appId uid name role "joined"
      some ({ success := true, allowed := none, reason := none }, st3)

/-- Result shape of leaveMeeting. -/
structure LeaveResult where
  success : Bool
deriving DecidableEq

/-- MeetingService.leaveMeeting: sets the participant to left with leftAt
stamped, then completes the meeting (stamping endedAt) when no active
participant remains. -/
def leaveMeeting (st : Store) (now : Int) (mid uid : String) :
    LeaveResult × Store :=
  let st1 := participantRepoUpdateStatus st now mid uid "left" (some now)
  let activeCount := countInMeetingActive st1 mid
  let st2 :=
    if activeCount == 0 then
      meetingRepoUpdateStatus st1 now mid "completed" (some now)
    else st1
  ({ success := true }, st2)

/-- The settings resolution of createMeeting: each field defaults when the
caller omitted it, maxParticipants to 2. -/
def resolveSettings (allowAnonymous waitingRoomEnabled recordingEnabled : Option Bool)
    (maxParticipants : Option Nat) : MeetingSettings :=
  { allowAnonymous := allowAnonymous.getD false,
    waitingRoomEnabled := waitingRoomEnabled.getD false,
    recordingEnabled := recordingEnabled.getD false,
    maxParticipants := maxParticipants.getD 2 }

/-- MeetingService.createMeeting, after identifier allocation: builds the
Meeting document. expiresAt is scheduledAt plus durationMinutes plus the
configured expiry buffer, in minutes; status is scheduled when scheduledAt
was supplied, else created. bufferMinutes stands for
config.meeting.expiryBufferMinutes. -/
def createMeeting (meetingId appId createdBy : String) (title : Option String)
    (scheduledAt : Option Int) (durationMinutes bufferMinutes : Nat)
    (settings : MeetingSettings) : Meeting :=
  { meetingId := meetingId, appId := appId, createdBy := createdBy,
    title := title.getD "Video Meeting",
    status := if scheduledAt.isSome then "scheduled" else "created",
    scheduledAt := scheduledAt,
    durationMinutes := durationMinutes,
    expiresAt := scheduledAt.map
      (fun t => t + ((durationMinutes : Int) + (bufferMinutes : Int)) * 60000),
    startedAt := none, endedAt := none,
    settings := settings }

/- ### Concrete fixtures used by witnesses and counterexamples -/

/-- A freshly created instant meeting with the default two-party limit. -/
def fixtureMeeting : Meeting :=
  createMeeting "abc-1234-xyz" "demo-app" "host-user" none none 60 30
    (resolveSettings none none none (some 2))

/-- A store holding only the fixture meeting and no participants. -/
def fixtureStore : Store := { meetings := [fixtureMeeting], participants := [] }

/-- A scheduled fixture meeting: scheduledAt epoch 0, one hour duration,
thirty minutes buffer. -/
def fixtureScheduledMeeting : Meeting :=
  createMeeting "sch-0000-mtg" "demo-app" "host-user" none (some 0) 60 30
    (resolveSettings none none none none)

/-- A store holding only the scheduled fixture meeting. -/
def fixtureScheduledStore : Store :=
  { meetings := [fixtureScheduledMeeting], participants := [] }

/-- A participant record as created by the first join at time 0. -/
def fixtureParticipant : Participant :=
  { meetingId := "abc-1234-xyz", appId := "demo-app", userId := "alice",
    name := "Alice", role := "participant", status := "joined",
    joinedAt := 0, connectedAt := none, leftAt := none, durationSeconds := 0 }

/-- A second participant record, bob, as created by a join at time 0. -/
def fixtureBob : Participant :=
  { fixtureParticipant with userId := "bob", name := "Bob" }

/-- The fixture store after alice joined at time 0: the meeting is active
and her record exists. -/
def c4StoreOne : Store :=
  { meetings := [{ fixtureMeeting with status := "active", startedAt := some 0 }],
    participants := [fixtureParticipant] }

/-- The fixture store after alice and bob both joined at time 0. -/
def c4StoreTwo : Store :=
  { meetings := [{ fixtureMeeting with status := "active", startedAt := some 0 }],
    participants := [fixtureParticipant, fixtureBob] }

/-- A meeting whose maxParticipants is 100, the threshold at which the
capacity check is skipped. -/
def fixtureUnlimitedMeeting : Meeting :=
  createMeeting "unl-0000-mtg" "demo-app" "host-user" none none 60 30
    (resolveSettings none none none (some 100))

/-- A meeting whose maxParticipants is 0, the falsy value that disables the
capacity check. -/
def fixtureZeroMeeting : Meeting :=
  createMeeting "zer-0000-mtg" "demo-app" "host-user" none none 60 30
    (resolveSettings none none none (some 0))

/-- Three active participants of the given meeting. -/
def fixtureCrowd (mid : String) : List Participant :=
  [{ fixtureParticipant with meetingId := mid, userId := "u1" },
   { fixtureParticipant with meetingId := mid, userId := "u2" },
   { fixtureParticipant with meetingId := mid, userId := "u3" }]

/-- The threshold meeting already holding three active participants. -/
def fixtureUnlimitedStore : Store :=
  { meetings := [fixtureUnlimitedMeeting],
    participants := fixtureCrowd "unl-0000-mtg" }

/-- The zero-limit meeting already holding three active participants. -/
def fixtureZeroStore : Store :=
  { meetings := [fixtureZeroMeeting],
    participants := fixtureCrowd "zer-0000-mtg" }

/- ### Signaling relay (socket/index.js) -/

/-- An admitted connection: its transport id and the claims bound by the
auth middleware (claims.roomId is the meeting the connection is bound to,
claims.sub the user). -/
structure Socket where
  sockId : Nat
  roomId : String
  userId : String
deriving DecidableEq

/-- The room membership index of the socket server: (roomKey, sockId)
pairs. -/
structure SigState where
  rooms : List (String × Nat)
deriving DecidableEq

/-- connection.join(roomKey): registers the socket in the room. -/
def socketJoin (st : SigState) (room : String) (sid : Nat) : SigState :=
  { rooms := (room, sid) :: st.rooms }

/-- The connection handler wiring that matters for relay: every admitted
socket joins exactly the room named by its bound meeting id
(socket.join(roomId)). -/
def onConnection (st : SigState) (s : Socket) : SigState :=
  socketJoin st s.roomId s.sockId

/-- Admit a list of connections in order, starting from an empty server. -/
def admitAll (socks : List Socket) : SigState :=
  List.foldl onConnection { rooms := [] } socks

/-- socket.to(room).emit(...): the recipient sockIds are the members of the
room excluding the sender itself. -/
def emitToRoom (st : SigState) (room : String) (senderSid : Nat) : List Nat :=
  (st.rooms.filter (fun mem => mem.1 == room && mem.2 != senderSid)).map
    (fun mem => mem.2)

/-- The webrtc-offer / webrtc-answer / ice-candidate handlers all relay with
socket.to(roomId).emit where roomId is the sender's bound meeting. -/
def relayEvent (st : SigState) (sender : Socket) : List Nat :=
  emitToRoom st sender.roomId sender.sockId

/- ### Webhook dispatcher (webhooks/dispatcher.js, utils/crypto.js, config.js) -/

/-- The per-app webhook subscription fields used by dispatchWebhook. -/
structure WebhookApp where
  appId : String
  webhookUrl : Option String
  webhookSecret : Option String
deriving DecidableEq

/-- config.webhook.retryScheduleSeconds. -/
def retryScheduleSeconds : List Nat := [0, 30, 120, 600, 1800]

/-- The JS truthiness fallback `app.webhookSecret || defaultSecret`: a
missing or empty secret falls back to the configured default. -/
def effectiveSecret (app : WebhookApp) (defaultSecret : String) : String :=
  match app.webhookSecret with
  | some s => if s == "" then defaultSecret else s
  | none => defaultSecret

/-- The headers of dispatchWebhook. hmac abstracts
crypto.createHmac("sha256", secret) over payload, hex digest; payloadJson
stands for JSON.stringify(payload). -/
structure WebhookHeaders where
  appId : String
  event : String
  timestamp : String
  signature : String
deriving DecidableEq

/-- The header construction of dispatchWebhook: the signature is
sha256= followed by the hex HMAC of timestamp, a dot, and the JSON body,
keyed by the subscription secret (with the default fallback). -/
def dispatchHeaders (hmac : String → String → String) (app : WebhookApp)
    (defaultSecret event timestamp payloadJson : String) : WebhookHeaders :=
  { appId := app.appId, event := event, timestamp := timestamp,
    signature :=
      "sha256=" ++
        hmac (timestamp ++ "." ++ payloadJson)
          (effectiveSecret app defaultSecret) }

/-- Response.ok of fetch: status in the 2xx range. -/
def resOk (status : Nat) : Bool := 200 ≤ status && status < 300

/-- The retry loop of dispatchWebhook. respond gives the outcome of each
POST by 0-based attempt index: some status, or none for a transport error
(caught and treated as a failed attempt). Returns the log of attempts as
(delaySeconds, outcome) pairs and whether a 2xx terminated the loop. The
delay before the first attempt is skipped (attempt > 0 guard); each later
attempt waits the next schedule entry. -/
def dispatchLoop (respond : Nat → Option Nat) :
    List Nat → Nat → List (Nat × Option Nat) × Bool
  | [], _ => ([], false)
  | waitSec :: rest, attempt =>
    let delay := if 0 < attempt then waitSec else 0
    match respond attempt with
    | some s =>
      if resOk s then ([(delay, some s)], true)
      else
        let tail := dispatchLoop respond rest (attempt + 1)
        ((delay, some s) :: tail.1, tail.2)
    | none =>
      let tail := dispatchLoop respond rest (attempt + 1)
      ((delay, none) :: tail.1, tail.2)

/-- dispatchWebhook delivery: runs the retry loop over the configured
schedule from attempt 0. -/
def dispatchWebhookAttempts (respond : Nat → Option Nat) :
    List (Nat × Option Nat) × Bool :=
  dispatchLoop respond retryScheduleSeconds 0

/- ### General lemmas about updateFirst and filters -/

theorem updateFirst_of_forall_not (p : α → Bool) (f : α → α) :
    ∀ l : List α, (∀ x ∈ l, p x = false) → updateFirst p f l = l := by
  intro l h
  induction l with
  | nil => rfl
  | cons x xs ih =>
    have hx := h x (List.mem_cons_self x xs)
    rw [updateFirst, if_neg (by simp [hx]),
      ih fun y hy => h y (List.mem_cons_of_mem x hy)]

theorem updateFirst_append_of_forall_not (p : α → Bool) (f : α → α)
    (l1 l2 : List α) (h : ∀ x ∈ l1, p x = false) :
    updateFirst p f (l1 ++ l2) = l1 ++ updateFirst p f l2 := by
  induction l1 with
  | nil => rfl
  | cons x xs ih =>
    have hx := h x (List.mem_cons_self x xs)
    rw [List.cons_append, updateFirst, if_neg (by simp [hx]), List.cons_append,
      ih fun y hy => h y (List.mem_cons_of_mem x hy)]

theorem find?_updateFirst (p : α → Bool) (f : α → α)
    (hf : ∀ a, p (f a) = p a) :
    ∀ l : List α, (updateFirst p f l).find? p = (l.find? p).map f := by
  intro l
  induction l with
  | nil => rfl
  | cons x xs ih =>
    by_cases hx : p x = true
    · simp [updateFirst, hx, List.find?_cons, hf x]
    · have hx2 : p x = false := by
        cases hpx : p x
        · rfl
        · exact absurd hpx hx
      simp [updateFirst, hx2, List.find?_cons, ih]

theorem find?_append_of_forall_not (p : α → Bool) (l1 l2 : List α)
    (h : ∀ x ∈ l1, p x = false) :
    (l1 ++ l2).find? p = l2.find? p := by
  induction l1 with
  | nil => rfl
  | cons x xs ih =>
    have hx := h x (List.mem_cons_self x xs)
    simp only [List.cons_append, List.find?_cons, hx]
    exact ih fun y hy => h y (List.mem_cons_of_mem x hy)

/- ### Allocator lemmas and claim C1 -/

theorem ledgerHas_append_left (ledger extra : List Reservation) (rid : String)
    (h : ledgerHas ledger rid = true) :
    ledgerHas (ledger ++ extra) rid = true := by
  simp only [ledgerHas, List.any_append, Bool.or_eq_true]
  exact Or.inl h

theorem generateRoomIdLoop_fresh (gen : Nat → String) (appId : String) :
    ∀ fuel attempt ledger id L2,
      generateRoomIdLoop gen appId fuel attempt ledger = (some id, L2) →
      ledgerHas ledger id = false ∧ ledgerHas L2 id = true := by
  intro fuel
  induction fuel with
  | zero =>
    intro attempt ledger id L2 h
    simp [generateRoomIdLoop] at h
  | succ n ih =>
    intro attempt ledger id L2 h
    by_cases hc : ledgerHas ledger (gen attempt) = true
    · simp only [generateRoomIdLoop, reserve, hc, if_true] at h
      exact ih (attempt + 1) ledger id L2 h
    · have hc2 : ledgerHas ledger (gen attempt) = false :=
        Bool.eq_false_iff.mpr hc
      simp only [generateRoomIdLoop, reserve, hc2, Bool.false_eq_true,
        if_false] at h
      obtain ⟨hid, hL⟩ := Prod.ext_iff.mp h
      simp only at hid hL
      obtain rfl : gen attempt = id := Option.some.inj hid
      refine ⟨hc2, ?_⟩
      rw [← hL]
      simp [ledgerHas, List.any_append]

theorem generateRoomIdLoop_mono (gen : Nat → String) (appId : String) :
    ∀ fuel attempt ledger r L2,
      generateRoomIdLoop gen appId fuel attempt ledger = (r, L2) →
      ∀ rid, ledgerHas ledger rid = true → ledgerHas L2 rid = true := by
  intro fuel
  induction fuel with
  | zero =>
    intro attempt ledger r L2 h rid hrid
    simp only [generateRoomIdLoop] at h
    obtain rfl : ledger = L2 := (Prod.ext_iff.mp h).2
    exact hrid
  | succ n ih =>
    intro attempt ledger r L2 h rid hrid
    by_cases hc : ledgerHas ledger (gen attempt) = true
    · simp only [generateRoomIdLoop, reserve, hc, if_true] at h
      exact ih (attempt + 1) ledger r L2 h rid hrid
    · have hc2 : ledgerHas ledger (gen attempt) = false :=
        Bool.eq_false_iff.mpr hc
      simp only [generateRoomIdLoop, reserve, hc2, Bool.false_eq_true,
        if_false] at h
      obtain rfl : ledger ++ [⟨gen attempt, appId⟩] = L2 := (Prod.ext_iff.mp h).2
      exact ledgerHas_append_left _ _ _ hrid

theorem generateRoomIdLoop_exhaust (gen : Nat → String) (appId : String)
    (ledger : List Reservation) (h : ∀ i, ledgerHas ledger (gen i) = true) :
    ∀ fuel attempt, generateRoomIdLoop gen appId fuel attempt ledger = (none, ledger) := by
  intro fuel
  induction fuel with
  | zero => intro attempt; rfl
  | succ n ih =>
    intro attempt
    simp only [generateRoomIdLoop, reserve, h attempt, if_true]
    exact ih (attempt + 1)

/-- Claim C1: across all tenants and all time the allocator never returns a
duplicate identifier: a successful allocation returns an id absent from the
ledger at call time and records it, so a second successful allocation
(against the ledger the first produced, by any tenant) returns a different
id; every collision is retried rather than surfaced, and when all ten
candidate draws collide the call is a terminal failure that returns no id
and leaves the ledger unchanged. -/
theorem C1_allocate_unique :
    (∀ gen app ledger maxAttempts id L2,
      generateUniqueRoomId gen app ledger maxAttempts = (some id, L2) →
      ledgerHas ledger id = false ∧ ledgerHas L2 id = true)
    ∧ (∀ gen1 app1 gen2 app2 ledger maxA1 maxA2 id1 L1 id2 L2,
      generateUniqueRoomId gen1 app1 ledger maxA1 = (some id1, L1) →
      generateUniqueRoomId gen2 app2 L1 maxA2 = (some id2, L2) →
      id1 ≠ id2)
    ∧ (∀ gen app ledger, (∀ i, ledgerHas ledger (gen i) = true) →
      generateUniqueRoomId gen app ledger 10 = (none, ledger)) := by
  refine ⟨?_, ?_, ?_⟩
  · intro gen app ledger maxAttempts id L2 h
    exact generateRoomIdLoop_fresh gen app maxAttempts 0 ledger id L2 h
  · intro gen1 app1 gen2 app2 ledger maxA1 maxA2 id1 L1 id2 L2 h1 h2
    have f1 := generateRoomIdLoop_fresh gen1 app1 maxA1 0 ledger id1 L1 h1
    have f2 := generateRoomIdLoop_fresh gen2 app2 maxA2 0 L1 id2 L2 h2
    intro hEq
    have hIn : ledgerHas L1 id2 = true := hEq ▸ f1.2
    rw [f2.1] at hIn
    exact Bool.false_ne_true hIn
  · intro gen app ledger h
    exact generateRoomIdLoop_exhaust gen app ledger h 10 0

/-- Witness for C1 at concrete inputs: a fresh id against the empty ledger,
a second allocation returning a different id, and exhaustion when every
candidate already sits in the ledger. -/
theorem C1_allocate_unique_witness :
    (ledgerHas [] "aaa-0000-aaa" = false
      ∧ ledgerHas [⟨"aaa-0000-aaa", "tenant1"⟩] "aaa-0000-aaa" = true)
    ∧ "aaa-0000-aaa" ≠ "bbb-1111-bbb"
    ∧ generateUniqueRoomId (fun _ => "aaa-0000-aaa") "tenant2"
        [⟨"aaa-0000-aaa", "tenant1"⟩] 10 = (none, [⟨"aaa-0000-aaa", "tenant1"⟩]) := by
  refine ⟨?_, ?_, ?_⟩
  · exact C1_allocate_unique.1 (fun _ => "aaa-0000-aaa") "tenant1" [] 10
      "aaa-0000-aaa" [⟨"aaa-0000-aaa", "tenant1"⟩] rfl
  · exact C1_allocate_unique.2.1 (fun _ => "aaa-0000-aaa") "tenant1"
      (fun _ => "bbb-1111-bbb") "tenant2" [] 10 10
      "aaa-0000-aaa" [⟨"aaa-0000-aaa", "tenant1"⟩]
      "bbb-1111-bbb" [⟨"aaa-0000-aaa", "tenant1"⟩, ⟨"bbb-1111-bbb", "tenant2"⟩]
      rfl rfl
  · exact C1_allocate_unique.2.2 (fun _ => "aaa-0000-aaa") "tenant2"
      [⟨"aaa-0000-aaa", "tenant1"⟩] (fun i => rfl)

/- ### Signaling relay lemmas and claim C2 -/

theorem foldl_onConnection_rooms_mem (socks : List Socket) :
    ∀ (init : SigState) (r : String) (i : Nat),
      (r, i) ∈ (List.foldl onConnection init socks).rooms ↔
        (r, i) ∈ init.rooms ∨ ∃ s ∈ socks, s.roomId = r ∧ s.sockId = i := by
  induction socks with
  | nil => intro init r i; simp
  | cons s rest ih =>
    intro init r i
    rw [List.foldl_cons, ih]
    constructor
    · rintro (hmem | ⟨c, hc, hcr, hci⟩)
      · simp only [onConnection, socketJoin, List.mem_cons] at hmem
        rcases hmem with hpair | hmem
        · obtain ⟨hr, hi⟩ := Prod.ext_iff.mp hpair
          exact Or.inr ⟨s, List.mem_cons_self s rest, hr.symm, hi.symm⟩
        · exact Or.inl hmem
      · exact Or.inr ⟨c, List.mem_cons_of_mem s hc, hcr, hci⟩
    · rintro (hmem | ⟨c, hc, hcr, hci⟩)
      · exact Or.inl (List.mem_cons_of_mem _ hmem)
      · rcases List.mem_cons.mp hc with rfl | hc2
        · exact Or.inl (by simp [onConnection, socketJoin, hcr, hci])
        · exact Or.inr ⟨c, hc2, hcr, hci⟩

theorem admitAll_rooms_mem (socks : List Socket) (r : String) (i : Nat) :
    (r, i) ∈ (admitAll socks).rooms ↔
      ∃ s ∈ socks, s.roomId = r ∧ s.sockId = i := by
  rw [admitAll, foldl_onConnection_rooms_mem]
  simp

theorem relayEvent_mem (st : SigState) (sender : Socket) (i : Nat) :
    i ∈ relayEvent st sender ↔
      (sender.roomId, i) ∈ st.rooms ∧ i ≠ sender.sockId := by
  simp only [relayEvent, emitToRoom, List.mem_map, List.mem_filter]
  constructor
  · rintro ⟨⟨r, j⟩, ⟨hmem, hpred⟩, rfl⟩
    simp only [Bool.and_eq_true, beq_iff_eq, bne_iff_ne, ne_eq] at hpred
    obtain ⟨rfl, hj⟩ := hpred
    exact ⟨hmem, hj⟩
  · rintro ⟨hmem, hi⟩
    exact ⟨(sender.roomId, i), ⟨hmem, by simp [hi]⟩, rfl⟩

/-- Claim C2: a relay event (webrtc-offer, webrtc-answer, ice-candidate)
from an admitted connection bound to meeting M is delivered to every other
connection joined to the room of M, to no connection bound to a different
meeting, and is never echoed back to the sender. -/
theorem C2_relay_isolation (socks : List Socket) (sender : Socket)
    (_hmem : sender ∈ socks)
    (hids : (socks.map Socket.sockId).Nodup) :
    (∀ c ∈ socks, c.roomId = sender.roomId → c.sockId ≠ sender.sockId →
      c.sockId ∈ relayEvent (admitAll socks) sender)
    ∧ (∀ c ∈ socks, c.roomId ≠ sender.roomId →
      c.sockId ∉ relayEvent (admitAll socks) sender)
    ∧ sender.sockId ∉ relayEvent (admitAll socks) sender := by
  refine ⟨?_, ?_, ?_⟩
  · intro c hc hroom hsid
    rw [relayEvent_mem, admitAll_rooms_mem]
    exact ⟨⟨c, hc, hroom, rfl⟩, hsid⟩
  · intro c hc hroom habs
    rw [relayEvent_mem, admitAll_rooms_mem] at habs
    obtain ⟨⟨c2, hc2, hc2room, hc2sid⟩, _⟩ := habs
    have hinj := List.inj_on_of_nodup_map hids
    have : c2 = c := hinj hc2 hc hc2sid
    rw [← this] at hroom
    exact hroom hc2room
  · intro habs
    rw [relayEvent_mem] at habs
    exact habs.2 rfl

/-- Witness for C2: three admitted connections, two bound to meeting m1 and
one to meeting m2; the relay of an offer from the first reaches the second,
does not reach the third, and does not echo to the sender. -/
theorem C2_relay_isolation_witness :
    (2 ∈ relayEvent
      (admitAll [⟨1, "m1", "alice"⟩, ⟨2, "m1", "bob"⟩, ⟨3, "m2", "carol"⟩])
      ⟨1, "m1", "alice"⟩)
    ∧ (3 ∉ relayEvent
      (admitAll [⟨1, "m1", "alice"⟩, ⟨2, "m1", "bob"⟩, ⟨3, "m2", "carol"⟩])
      ⟨1, "m1", "alice"⟩)
    ∧ (1 ∉ relayEvent
      (admitAll [⟨1, "m1", "alice"⟩, ⟨2, "m1", "bob"⟩, ⟨3, "m2", "carol"⟩])
      ⟨1, "m1", "alice"⟩) := by
  have h := C2_relay_isolation
    [⟨1, "m1", "alice"⟩, ⟨2, "m1", "bob"⟩, ⟨3, "m2", "carol"⟩]
    ⟨1, "m1", "alice"⟩ (by simp) (by simp)
  refine ⟨?_, ?_, h.2.2⟩
  · exact h.1 ⟨2, "m1", "bob"⟩ (by simp) rfl (by simp)
  · exact h.2.1 ⟨3, "m2", "carol"⟩ (by simp) (by simp)

/- ### Meeting service lemmas -/

theorem meetingRepoUpdateStatus_participants (st : Store) (now : Int)
    (mid status : String) (e : Option Int) :
    (meetingRepoUpdateStatus st now mid status e).participants = st.participants := rfl

theorem participantRepoUpdateStatus_meetings (st : Store) (now : Int)
    (mid uid status : String) (t : Option Int) :
    (participantRepoUpdateStatus st now mid uid status t).meetings = st.meetings := rfl

theorem participantRepoAdd_meetings (st : Store) (now : Int)
    (mid appId uid name role status : String) :
    (participantRepoAdd st now mid appId uid name role status).meetings = st.meetings := rfl

theorem meetingApplyStatus_expired (now : Int) (m : Meeting) :
    meetingApplyStatus now "expired" none m = { m with status := "expired" } := rfl

theorem meetingApplyStatus_completed (now : Int) (e : Int) (m : Meeting) :
    meetingApplyStatus now "completed" (some e) m =
      { m with status := "completed", endedAt := some e } := rfl

theorem meetingApplyStatus_active (now : Int) (m : Meeting) :
    meetingApplyStatus now "active" none m =
      { m with status := "active", startedAt := some now } := rfl

theorem findByMeetingId_update (st : Store) (now : Int) (mid status : String)
    (e : Option Int) :
    findByMeetingId (meetingRepoUpdateStatus st now mid status e) mid =
      (findByMeetingId st mid).map (meetingApplyStatus now status e) := by
  unfold findByMeetingId meetingRepoUpdateStatus
  exact find?_updateFirst _ _ (fun a => by simp [meetingApplyStatus]) _

theorem meetingExpired_congr (now : Int) (m1 m2 : Meeting)
    (h : m1.expiresAt = m2.expiresAt) :
    meetingExpired now m1 = meetingExpired now m2 := by
  simp [meetingExpired, h]

theorem capacityCheck_cases (st : Store) (m : Meeting) (mid : String)
    (u : Option String) :
    canJoinCapacityCheck st m mid u = { allowed := true, reason := none }
    ∨ canJoinCapacityCheck st m mid u =
        { allowed := false, reason := some "Meeting is full" } := by
  dsimp only [canJoinCapacityCheck]
  split
  · split
    · exact Or.inr rfl
    · exact Or.inl rfl
  · exact Or.inl rfl

theorem capacityCheck_allowed_eq (st : Store) (m : Meeting) (mid : String)
    (u : Option String)
    (h : (canJoinCapacityCheck st m mid u).allowed = true) :
    canJoinCapacityCheck st m mid u = { allowed := true, reason := none } := by
  rcases capacityCheck_cases st m mid u with hc | hc
  · exact hc
  · rw [hc] at h
    exact absurd h (by simp)

theorem capacityCheck_congr_store (st1 st2 : Store) (m : Meeting)
    (mid uid : String)
    (h : (getActiveInMeeting st1 mid).filter (fun p => p.userId != uid) =
        (getActiveInMeeting st2 mid).filter (fun p => p.userId != uid)) :
    canJoinCapacityCheck st1 m mid (some uid) =
      canJoinCapacityCheck st2 m mid (some uid) := by
  simp only [canJoinCapacityCheck, h]

theorem capacityCheck_congr_settings (st : Store) (m1 m2 : Meeting)
    (mid : String) (u : Option String)
    (h : m1.settings.maxParticipants = m2.settings.maxParticipants) :
    canJoinCapacityCheck st m1 mid u = canJoinCapacityCheck st m2 mid u := by
  simp only [canJoinCapacityCheck, effectiveMaxParticipants, h]

theorem canJoin_of_facts (st : Store) (now : Int) (mid : String)
    (u : Option String) (m : Meeting)
    (hfind : findByMeetingId st mid = some m)
    (hstat : validJoinStatuses.contains m.status = true)
    (hexp : meetingExpired now m = false)
    (hcap : canJoinCapacityCheck st m mid u = { allowed := true, reason := none }) :
    canJoinMeeting st now mid u = ({ allowed := true, reason := none }, st) := by
  have hstatF : ¬ validJoinStatuses.contains m.status = false := by
    intro hf
    rw [hstat] at hf
    exact absurd hf (by decide)
  have hexpF : ¬ meetingExpired now m = true := by
    intro hf
    rw [hexp] at hf
    exact absurd hf (by decide)
  unfold canJoinMeeting
  rw [hfind]
  dsimp only
  rw [if_neg hstatF, if_neg hexpF, hcap]

theorem canJoin_capacity_stage (st : Store) (now : Int) (mid : String)
    (u : Option String) (m : Meeting)
    (hfind : findByMeetingId st mid = some m)
    (hstat : validJoinStatuses.contains m.status = true)
    (hexp : meetingExpired now m = false) :
    canJoinMeeting st now mid u = (canJoinCapacityCheck st m mid u, st) := by
  have hstatF : ¬ validJoinStatuses.contains m.status = false := by
    intro hf
    rw [hstat] at hf
    exact absurd hf (by decide)
  have hexpF : ¬ meetingExpired now m = true := by
    intro hf
    rw [hexp] at hf
    exact absurd hf (by decide)
  unfold canJoinMeeting
  rw [hfind]
  dsimp only
  rw [if_neg hstatF, if_neg hexpF]

theorem canJoin_expired (st : Store) (now : Int) (mid : String)
    (u : Option String) (m : Meeting)
    (hfind : findByMeetingId st mid = some m)
    (hstat : validJoinStatuses.contains m.status = true)
    (hexp : meetingExpired now m = true) :
    canJoinMeeting st now mid u =
      ({ allowed := false, reason := some "Meeting has expired" },
        meetingRepoUpdateStatus st now mid "expired" none) := by
  have hstatF : ¬ validJoinStatuses.contains m.status = false := by
    intro hf
    rw [hstat] at hf
    exact absurd hf (by decide)
  unfold canJoinMeeting
  rw [hfind]
  dsimp only
  rw [if_neg hstatF, if_pos hexp]

theorem canJoin_bad_status (st : Store) (now : Int) (mid : String)
    (u : Option String) (m : Meeting)
    (hfind : findByMeetingId st mid = some m)
    (hstat : validJoinStatuses.contains m.status = false) :
    canJoinMeeting st now mid u =
      ({ allowed := false, reason := some ("Meeting is " ++ m.status) }, st) := by
  unfold canJoinMeeting
  rw [hfind]
  dsimp only
  rw [if_pos hstat]

theorem joinMeeting_denied (st : Store) (now : Int)
    (mid uid name role : String) (res : CanJoinResult) (st2 : Store)
    (h : canJoinMeeting st now mid (some uid) = (res, st2))
    (hall : res.allowed = false) :
    joinMeeting st now mid uid name role =
      some ({ success := false, allowed := some false,
              reason := res.reason }, st2) := by
  unfold joinMeeting
  rw [h]
  dsimp only
  rw [if_pos hall]

theorem canJoin_allowed_inv (st : Store) (now : Int) (mid : String)
    (u : Option String)
    (h : (canJoinMeeting st now mid u).1.allowed = true) :
    (canJoinMeeting st now mid u).2 = st
    ∧ ∃ m, findByMeetingId st mid = some m
      ∧ validJoinStatuses.contains m.status = true
      ∧ meetingExpired now m = false
      ∧ canJoinCapacityCheck st m mid u = { allowed := true, reason := none } := by
  unfold canJoinMeeting at h ⊢
  cases hfind : findByMeetingId st mid with
  | none =>
    rw [hfind] at h
    dsimp only at h
    exact absurd h (by decide)
  | some m =>
    rw [hfind] at h
    dsimp only at h ⊢
    by_cases hstat : validJoinStatuses.contains m.status = false
    · rw [if_pos hstat] at h
      exact absurd h (by simp)
    · rw [if_neg hstat] at h ⊢
      have hstat2 : validJoinStatuses.contains m.status = true := by
        cases hx : validJoinStatuses.contains m.status
        · exact absurd hx hstat
        · rfl
      by_cases hexp : meetingExpired now m = true
      · rw [if_pos hexp] at h
        exact absurd h (by simp)
      · have hexp2 : meetingExpired now m = false := Bool.eq_false_iff.mpr hexp
        rw [if_neg hexp] at h ⊢
        exact ⟨rfl, m, rfl, hstat2, hexp2, capacityCheck_allowed_eq st m mid u h⟩

/- ### Claim C7 -/

/-- Claim C7 (amended): joining an unknown meeting id always yields the
denial { success := false, allowed := false, reason := "Meeting not found" }
with the store untouched, and never throws (the embedded joinMeeting returns
some result, never the exception marker none). The reason string in the
source is "Meeting not found", not the literal "not found" quoted by the
claim. -/
theorem C7_join_unknown_meeting (st : Store) (now : Int)
    (mid uid name role : String)
    (h : findByMeetingId st mid = none) :
    joinMeeting st now mid uid name role =
      some ({ success := false, allowed := some false,
              reason := some "Meeting not found" }, st) := by
  simp [joinMeeting, canJoinMeeting, h]

/-- Witness for C7: the fixture store does not contain zzz-9999-zzz, and a
join against it returns the not-found denial without throwing. -/
theorem C7_join_unknown_meeting_witness :
    findByMeetingId fixtureStore "zzz-9999-zzz" = none
    ∧ joinMeeting fixtureStore 0 "zzz-9999-zzz" "alice" "Alice" "participant" =
        some ({ success := false, allowed := some false,
                reason := some "Meeting not found" }, fixtureStore) :=
  ⟨by decide,
    C7_join_unknown_meeting fixtureStore 0 "zzz-9999-zzz" "alice" "Alice"
      "participant" (by decide)⟩

/-- Counterexample for C7 as stated: the denial reason produced by the code
for an unknown meeting id is the string "Meeting not found", which is not
the literal "not found" the claim quotes. -/
theorem C7_reason_counterexample :
    (joinMeeting fixtureStore 0 "zzz-9999-zzz" "alice" "Alice" "participant").map
      (fun r => r.1.reason) = some (some "Meeting not found")
    ∧ ("Meeting not found" : String) ≠ "not found" := by decide

/- ### Claim C10 -/

/-- Claim C10: leaveMeeting always reports success, even when no participant
record matches (the update is a no-op on the participants collection); and
whenever the active count after the update is zero the meeting is
unconditionally set to completed with endedAt stamped, whatever its prior
status was (the meeting m below is arbitrary, covering created, scheduled,
cancelled and expired). -/
theorem C10_leave_always_succeeds (st : Store) (now : Int) (mid uid : String) :
    (leaveMeeting st now mid uid).1 = { success := true }
    ∧ (st.participants.find? (participantKey mid uid) = none →
        (leaveMeeting st now mid uid).2.participants = st.participants)
    ∧ (∀ m, findByMeetingId st mid = some m →
        countInMeetingActive
          (participantRepoUpdateStatus st now mid uid "left" (some now)) mid = 0 →
        findByMeetingId (leaveMeeting st now mid uid).2 mid =
          some { m with status := "completed", endedAt := some now }) := by
  refine ⟨rfl, ?_, ?_⟩
  · intro hnone
    have hnokey : ∀ p ∈ st.participants, participantKey mid uid p = false := by
      intro p hp
      have := List.find?_eq_none.mp hnone p hp
      cases hx : participantKey mid uid p
      · rfl
      · exact absurd hx this
    have hfix : (participantRepoUpdateStatus st now mid uid "left" (some now)).participants
        = st.participants := by
      unfold participantRepoUpdateStatus
      exact updateFirst_of_forall_not _ _ _ hnokey
    unfold leaveMeeting
    dsimp only
    split
    · rw [meetingRepoUpdateStatus_participants]
      exact hfix
    · exact hfix
  · intro m hfind hcount
    unfold leaveMeeting
    dsimp only
    rw [if_pos (by simp [hcount])]
    have hfind1 : findByMeetingId
        (participantRepoUpdateStatus st now mid uid "left" (some now)) mid = some m := by
      unfold findByMeetingId
      rw [participantRepoUpdateStatus_meetings]
      exact hfind
    rw [findByMeetingId_update, hfind1]
    rfl

/-- Witness for C10: leaving with an unknown user keeps the participant list
unchanged, and the last leave of the fixture participant completes the
fixture meeting with endedAt stamped. -/
theorem C10_leave_always_succeeds_witness :
    (leaveMeeting { meetings := [fixtureMeeting], participants := [fixtureParticipant] }
        5000 "abc-1234-xyz" "nobody").2.participants = [fixtureParticipant]
    ∧ findByMeetingId
        (leaveMeeting { meetings := [fixtureMeeting], participants := [fixtureParticipant] }
          5000 "abc-1234-xyz" "alice").2 "abc-1234-xyz" =
        some { fixtureMeeting with status := "completed", endedAt := some 5000 } := by
  have h1 := C10_leave_always_succeeds
    { meetings := [fixtureMeeting], participants := [fixtureParticipant] }
    5000 "abc-1234-xyz" "nobody"
  have h2 := C10_leave_always_succeeds
    { meetings := [fixtureMeeting], participants := [fixtureParticipant] }
    5000 "abc-1234-xyz" "alice"
  exact ⟨h1.2.1 (by decide), h2.2.2 fixtureMeeting (by decide) (by decide)⟩

/- ### Claim C6 -/

/-- Claim C6 (amended): a meeting created with scheduledAt T, sixty minutes
duration and a thirty minute buffer carries expiresAt T plus ninety minutes
(5400000 ms); a join strictly after that instant is denied and the meeting
status becomes expired as a side effect. The denial reason in the source is
"Meeting has expired", not the literal "expired" quoted by the claim. -/
theorem C6_expiry_denial (T : Int) (mid appId createdBy : String)
    (title : Option String) (settings : MeetingSettings) (st : Store)
    (now : Int) (uid name role : String)
    (hfind : findByMeetingId st mid =
      some (createMeeting mid appId createdBy title (some T) 60 30 settings))
    (hnow : now > T + 5400000) :
    (createMeeting mid appId createdBy title (some T) 60 30 settings).expiresAt
      = some (T + 5400000)
    ∧ joinMeeting st now mid uid name role =
        some ({ success := false, allowed := some false,
                reason := some "Meeting has expired" },
          meetingRepoUpdateStatus st now mid "expired" none)
    ∧ findByMeetingId (meetingRepoUpdateStatus st now mid "expired" none) mid =
        some { createMeeting mid appId createdBy title (some T) 60 30 settings
               with status := "expired" } := by
  have hexpAt : (createMeeting mid appId createdBy title (some T) 60 30
      settings).expiresAt = some (T + 5400000) := by
    show some (T + ((60 : Int) + (30 : Int)) * 60000) = some (T + 5400000)
    norm_num
  have hexp : meetingExpired now
      (createMeeting mid appId createdBy title (some T) 60 30 settings) = true := by
    unfold meetingExpired
    rw [hexpAt]
    exact decide_eq_true hnow
  have hstat : validJoinStatuses.contains
      (createMeeting mid appId createdBy title (some T) 60 30 settings).status
      = true := rfl
  refine ⟨hexpAt, ?_, ?_⟩
  · exact joinMeeting_denied st now mid uid name role _ _
      (canJoin_expired st now mid (some uid) _ hfind hstat hexp) rfl
  · rw [findByMeetingId_update, hfind]
    rfl

/-- Witness for C6 at the scheduled fixture: T is epoch 0, the join happens
at 5400001 ms. -/
theorem C6_expiry_denial_witness :
    fixtureScheduledMeeting.expiresAt = some 5400000
    ∧ joinMeeting fixtureScheduledStore 5400001 "sch-0000-mtg" "alice" "Alice"
        "participant" =
        some ({ success := false, allowed := some false,
                reason := some "Meeting has expired" },
          meetingRepoUpdateStatus fixtureScheduledStore 5400001 "sch-0000-mtg"
            "expired" none)
    ∧ findByMeetingId
        (meetingRepoUpdateStatus fixtureScheduledStore 5400001 "sch-0000-mtg"
          "expired" none) "sch-0000-mtg" =
        some { fixtureScheduledMeeting with status := "expired" } := by
  have h := C6_expiry_denial 0 "sch-0000-mtg" "demo-app" "host-user" none
    (resolveSettings none none none none) fixtureScheduledStore 5400001
    "alice" "Alice" "participant" (by decide) (by decide)
  exact ⟨by decide, h.2.1, h.2.2⟩

/-- Counterexample for C6 as stated: the denial reason produced by the code
after expiry is the string "Meeting has expired", which is not the literal
"expired" the claim quotes. -/
theorem C6_reason_counterexample :
    (canJoinMeeting fixtureScheduledStore 5400001 "sch-0000-mtg"
      (some "alice")).1.reason = some "Meeting has expired"
    ∧ ("Meeting has expired" : String) ≠ "expired" := by decide

/- ### Claim C5 -/

theorem filter_active_after_left_nil (mid uid : String) (now : Int) :
    ∀ l : List Participant,
      (l.filter (participantKey mid uid)).length ≤ 1 →
      (∀ p ∈ l, p.meetingId = mid → isActiveStatus p.status = true →
        p.userId = uid) →
      (updateFirst (participantKey mid uid)
        (participantApplyStatus now "left" (some now)) l).filter
        (fun p => p.meetingId == mid && isActiveStatus p.status) = [] := by
  intro l
  induction l with
  | nil => intro _ _; rfl
  | cons x xs ih =>
    intro huniq hlast
    by_cases hk : participantKey mid uid x = true
    · rw [updateFirst, if_pos hk, List.filter_cons,
        if_neg (by simp [participantApplyStatus, isActiveStatus])]
      have hxsKeyNil : List.filter (participantKey mid uid) xs = [] := by
        have hlen : (List.filter (participantKey mid uid) (x :: xs)).length =
            (List.filter (participantKey mid uid) xs).length + 1 := by
          rw [List.filter_cons, if_pos (by simp [hk])]
          rfl
        rw [hlen] at huniq
        exact List.length_eq_zero.mp (by omega)
      have hxsNoKey : ∀ p ∈ xs, ¬ participantKey mid uid p = true := by
        rw [← List.filter_eq_nil_iff]
        exact hxsKeyNil
      apply List.filter_eq_nil_iff.mpr
      intro p hp hpact
      have hmid : p.meetingId = mid := by
        have := (Bool.and_eq_true _ _).mp hpact
        exact beq_iff_eq.mp this.1
      have hact : isActiveStatus p.status = true := by
        exact ((Bool.and_eq_true _ _).mp hpact).2
      have huid : p.userId = uid := hlast p (List.mem_cons_of_mem x hp) hmid hact
      exact hxsNoKey p hp (by simp [participantKey, hmid, huid])
    · have hknot : participantKey mid uid x = false := Bool.eq_false_iff.mpr hk
      rw [updateFirst, if_neg (by simp [hknot]), List.filter_cons]
      have hxInactive : (x.meetingId == mid && isActiveStatus x.status) = false := by
        cases hmid : x.meetingId == mid
        · rfl
        · cases hact : isActiveStatus x.status
          · simp
          · have huid : x.userId = uid :=
              hlast x (List.mem_cons_self x xs) (beq_iff_eq.mp hmid) hact
            have : participantKey mid uid x = true := by
              simp [participantKey, beq_iff_eq.mp hmid, huid]
            exact absurd this hk
      rw [if_neg (by simp [hxInactive])]
      refine ih ?_ ?_
      · have hlen : (List.filter (participantKey mid uid) (x :: xs)) =
            List.filter (participantKey mid uid) xs := by
          rw [List.filter_cons, if_neg (by simp [hknot])]
        rw [hlen] at huniq
        exact huniq
      · intro p hp
        exact hlast p (List.mem_cons_of_mem x hp)

/-- Claim C5: when the last active participant of an active meeting leaves
(the meeting has at most one record for that user, and every active
participant of the meeting is that user), the meeting transitions to
completed with endedAt stamped, and every subsequent join against it is
denied with the reason naming its terminal status ("Meeting is completed"),
with no further state change. -/
theorem C5_last_leave_completes (st : Store) (now : Int) (mid uid : String)
    (m : Meeting)
    (hfind : findByMeetingId st mid = some m)
    (_hactive : m.status = "active")
    (huniq : (st.participants.filter (participantKey mid uid)).length ≤ 1)
    (hlast : ∀ p ∈ st.participants, p.meetingId = mid →
      isActiveStatus p.status = true → p.userId = uid) :
    findByMeetingId (leaveMeeting st now mid uid).2 mid =
      some { m with status := "completed", endedAt := some now }
    ∧ ∀ now2 uid2 name2 role2,
        joinMeeting (leaveMeeting st now mid uid).2 now2 mid uid2 name2 role2 =
          some ({ success := false, allowed := some false,
                  reason := some "Meeting is completed" },
            (leaveMeeting st now mid uid).2) := by
  have hcount : countInMeetingActive
      (participantRepoUpdateStatus st now mid uid "left" (some now)) mid = 0 := by
    unfold countInMeetingActive participantRepoUpdateStatus
    dsimp only
    rw [filter_active_after_left_nil mid uid now st.participants huniq hlast]
    rfl
  have hst2 : (leaveMeeting st now mid uid).2 =
      meetingRepoUpdateStatus
        (participantRepoUpdateStatus st now mid uid "left" (some now))
        now mid "completed" (some now) := by
    unfold leaveMeeting
    dsimp only
    rw [if_pos (by simp [hcount])]
  have hfind2 : findByMeetingId (leaveMeeting st now mid uid).2 mid =
      some { m with status := "completed", endedAt := some now } := by
    rw [hst2, findByMeetingId_update]
    have hfind1 : findByMeetingId
        (participantRepoUpdateStatus st now mid uid "left" (some now)) mid =
        some m := by
      unfold findByMeetingId
      rw [participantRepoUpdateStatus_meetings]
      exact hfind
    rw [hfind1]
    rfl
  refine ⟨hfind2, ?_⟩
  intro now2 uid2 name2 role2
  have hbad : validJoinStatuses.contains
      ({ m with status := "completed", endedAt := some now } : Meeting).status
      = false := rfl
  have hden := canJoin_bad_status (leaveMeeting st now mid uid).2 now2 mid
    (some uid2) _ hfind2 hbad
  have := joinMeeting_denied (leaveMeeting st now mid uid).2 now2 mid uid2
    name2 role2 _ _ hden rfl
  rw [this]
  rfl

/-- Witness for C5: the fixture participant is the only active participant
of the activated fixture meeting; leaving at 5000 completes the meeting and
a later join by another user is denied. -/
theorem C5_last_leave_completes_witness :
    findByMeetingId
      (leaveMeeting
        { meetings := [{ fixtureMeeting with status := "active", startedAt := some 0 }],
          participants := [fixtureParticipant] }
        5000 "abc-1234-xyz" "alice").2 "abc-1234-xyz" =
      some { fixtureMeeting with
             status := "completed", startedAt := some 0, endedAt := some 5000 }
    ∧ joinMeeting
        (leaveMeeting
          { meetings := [{ fixtureMeeting with status := "active", startedAt := some 0 }],
            participants := [fixtureParticipant] }
          5000 "abc-1234-xyz" "alice").2 6000 "abc-1234-xyz" "bob" "Bob"
        "participant" =
        some ({ success := false, allowed := some false,
                reason := some "Meeting is completed" },
          (leaveMeeting
            { meetings := [{ fixtureMeeting with status := "active", startedAt := some 0 }],
              participants := [fixtureParticipant] }
            5000 "abc-1234-xyz" "alice").2) := by
  have h := C5_last_leave_completes
    { meetings := [{ fixtureMeeting with status := "active", startedAt := some 0 }],
      participants := [fixtureParticipant] }
    5000 "abc-1234-xyz" "alice"
    { fixtureMeeting with status := "active", startedAt := some 0 }
    (by decide) rfl (by decide) (by decide)
  exact ⟨h.1, h.2 6000 "bob" "Bob" "participant"⟩

/- ### Claim C4 -/

/-- Claim C4 (amended): with maxParticipants 2, two distinct users join
successfully, a third distinct user is denied (with the source reason
string "Meeting is full", not the literal "full" the claim quotes) and the
state is untouched, while a rejoin by an already-counted user succeeds;
in general the capacity gate counts active participants excluding the
requesting userId, and a maxParticipants of 0 or at least 100 disables the
check entirely. -/
theorem C4_capacity_enforcement :
    (joinMeeting fixtureStore 0 "abc-1234-xyz" "alice" "Alice" "participant" =
        some ({ success := true, allowed := none, reason := none }, c4StoreOne)
      ∧ joinMeeting c4StoreOne 0 "abc-1234-xyz" "bob" "Bob" "participant" =
        some ({ success := true, allowed := none, reason := none }, c4StoreTwo)
      ∧ joinMeeting c4StoreTwo 0 "abc-1234-xyz" "carol" "Carol" "participant" =
        some ({ success := false, allowed := some false,
                reason := some "Meeting is full" }, c4StoreTwo)
      ∧ joinMeeting c4StoreTwo 0 "abc-1234-xyz" "alice" "Alice" "participant" =
        some ({ success := true, allowed := none, reason := none }, c4StoreTwo))
    ∧ (∀ st now mid m uid, findByMeetingId st mid = some m →
        validJoinStatuses.contains m.status = true →
        meetingExpired now m = false →
        0 < effectiveMaxParticipants m →
        effectiveMaxParticipants m < 100 →
        ((canJoinMeeting st now mid (some uid)).1.allowed = true ↔
          ((getActiveInMeeting st mid).filter
            (fun p => p.userId != uid)).length < effectiveMaxParticipants m))
    ∧ (∀ st now mid m u, findByMeetingId st mid = some m →
        validJoinStatuses.contains m.status = true →
        meetingExpired now m = false →
        (m.settings.maxParticipants = 0 ∨ 100 ≤ m.settings.maxParticipants) →
        (canJoinMeeting st now mid u).1 = { allowed := true, reason := none }) := by
  refine ⟨⟨by decide, by decide, by decide, by decide⟩, ?_, ?_⟩
  · intro st now mid m uid hfind hstat hexp h0 h100
    rw [canJoin_capacity_stage st now mid (some uid) m hfind hstat hexp]
    dsimp only
    unfold canJoinCapacityCheck
    dsimp only
    rw [if_pos (by simp [h0, h100])]
    by_cases hle : effectiveMaxParticipants m ≤
        ((getActiveInMeeting st mid).filter (fun p => p.userId != uid)).length
    · rw [if_pos hle]
      constructor
      · intro habs
        exact absurd habs (by decide)
      · intro hlt
        exact absurd hlt (by omega)
    · rw [if_neg hle]
      constructor
      · intro _
        omega
      · intro _
        rfl
  · intro st now mid m u hfind hstat hexp hdis
    rw [canJoin_capacity_stage st now mid u m hfind hstat hexp]
    dsimp only
    unfold canJoinCapacityCheck
    dsimp only
    have h1 : ¬ effectiveMaxParticipants m < 100 := by
      unfold effectiveMaxParticipants
      rcases hdis with h0 | h100
      · rw [if_pos (by simp [h0])]
        omega
      · rw [if_neg (by simp; omega)]
        omega
    rw [if_neg (by simp [h1])]

/-- Witness for C4: the capacity gate counts only the other active
participants of the fixture meeting, and a crowd of three active users does
not block admission when maxParticipants is 100 or 0. -/
theorem C4_capacity_enforcement_witness :
    ((canJoinMeeting fixtureStore 0 "abc-1234-xyz" (some "alice")).1.allowed = true ↔
      ((getActiveInMeeting fixtureStore "abc-1234-xyz").filter
        (fun p => p.userId != "alice")).length <
        effectiveMaxParticipants fixtureMeeting)
    ∧ (canJoinMeeting fixtureUnlimitedStore 0 "unl-0000-mtg" (some "u9")).1 =
        { allowed := true, reason := none }
    ∧ (canJoinMeeting fixtureZeroStore 0 "zer-0000-mtg" (some "u9")).1 =
        { allowed := true, reason := none } := by
  refine ⟨?_, ?_, ?_⟩
  · exact C4_capacity_enforcement.2.1 fixtureStore 0 "abc-1234-xyz"
      fixtureMeeting "alice" (by decide) (by decide) (by decide) (by decide)
      (by decide)
  · exact C4_capacity_enforcement.2.2 fixtureUnlimitedStore 0 "unl-0000-mtg"
      fixtureUnlimitedMeeting (some "u9") (by decide) (by decide) (by decide)
      (Or.inr (by decide))
  · exact C4_capacity_enforcement.2.2 fixtureZeroStore 0 "zer-0000-mtg"
      fixtureZeroMeeting (some "u9") (by decide) (by decide) (by decide)
      (Or.inl (by decide))

/-- Counterexample for C4 as stated: the denial reason produced by the code
for a full meeting is the string "Meeting is full", which is not the
literal "full" the claim quotes. -/
theorem C4_reason_counterexample :
    (joinMeeting c4StoreTwo 0 "abc-1234-xyz" "carol" "Carol" "participant").map
      (fun r => r.1.reason) = some (some "Meeting is full")
    ∧ ("Meeting is full" : String) ≠ "full" := by decide

/- ### Claim C3 -/

theorem findByMeetingId_congr_meetings (st1 st2 : Store) (mid : String)
    (h : st1.meetings = st2.meetings) :
    findByMeetingId st1 mid = findByMeetingId st2 mid := by
  unfold findByMeetingId
  rw [h]

theorem joinMeeting_new_participant (st : Store) (now : Int)
    (mid uid name role : String) (m : Meeting)
    (hfind : findByMeetingId st mid = some m)
    (hstat : validJoinStatuses.contains m.status = true)
    (hexp : meetingExpired now m = false)
    (hcap : canJoinCapacityCheck st m mid (some uid) =
      { allowed := true, reason := none })
    (hnone : st.participants.find? (participantKey mid uid) = none) :
    joinMeeting st now mid uid name role =
      some ({ success := true, allowed := none, reason := none },
        participantRepoAdd
          (if (m.status == "created" || m.status == "scheduled") = true then
            meetingRepoUpdateStatus st now mid "active" none
          else st)
          now mid m.appId uid name role "joined") := by
  have hcj := canJoin_of_facts st now mid (some uid) m hfind hstat hexp hcap
  unfold joinMeeting
  rw [hcj]
  dsimp only
  rw [if_neg (show ¬ (true = false) by decide), hfind]
  dsimp only
  by_cases hcs : (m.status == "created" || m.status == "scheduled") = true
  · rw [if_pos hcs, meetingRepoUpdateStatus_participants, hnone]
  · rw [if_neg hcs, hnone]

theorem joinMeeting_rejoin (st : Store) (now : Int)
    (mid uid name role : String) (m : Meeting)
    (hfind : findByMeetingId st mid = some m)
    (hstat : validJoinStatuses.contains m.status = true)
    (hexp : meetingExpired now m = false)
    (hcap : canJoinCapacityCheck st m mid (some uid) =
      { allowed := true, reason := none })
    (hsome : (st.participants.find? (participantKey mid uid)).isSome = true) :
    joinMeeting st now mid uid name role =
      some ({ success := true, allowed := none, reason := none },
        participantRepoUpdateStatus
          (if (m.status == "created" || m.status == "scheduled") = true then
            meetingRepoUpdateStatus st now mid "active" none
          else st)
          now mid uid "joined" none) := by
  have hcj := canJoin_of_facts st now mid (some uid) m hfind hstat hexp hcap
  obtain ⟨p, hp⟩ := Option.isSome_iff_exists.mp hsome
  unfold joinMeeting
  rw [hcj]
  dsimp only
  rw [if_neg (show ¬ (true = false) by decide), hfind]
  dsimp only
  by_cases hcs : (m.status == "created" || m.status == "scheduled") = true
  · rw [if_pos hcs, meetingRepoUpdateStatus_participants, hp]
  · rw [if_neg hcs, hp]

/-- Claim C3: two joins by the same (meetingId, userId) with no leave in
between create exactly one participant record: when the pair is absent and
the first join succeeds, the store afterwards holds exactly one record for
the pair, and the second join succeeds by updating that single record,
leaving its status "joined" and still exactly one record. -/
theorem C3_join_idempotent (st : Store) (now : Int) (mid uid name role : String)
    (r1 : JoinResult) (st1 : Store)
    (hjoin : joinMeeting st now mid uid name role = some (r1, st1))
    (hsucc : r1.success = true)
    (hfresh : (st.participants.filter (participantKey mid uid)).length = 0) :
    (st1.participants.filter (participantKey mid uid)).length = 1
    ∧ ∃ st2, joinMeeting st1 now mid uid name role =
        some ({ success := true, allowed := none, reason := none }, st2)
      ∧ (st2.participants.filter (participantKey mid uid)).length = 1
      ∧ (st2.participants.find? (participantKey mid uid)).map
          (fun p => p.status) = some "joined" := by
  have hfilterNil : st.participants.filter (participantKey mid uid) = [] :=
    List.length_eq_zero.mp hfresh
  have hnokey : ∀ p ∈ st.participants, participantKey mid uid p = false := by
    intro p hp
    have := List.filter_eq_nil_iff.mp hfilterNil p hp
    cases hx : participantKey mid uid p
    · rfl
    · exact absurd hx this
  have hnone : st.participants.find? (participantKey mid uid) = none :=
    List.find?_eq_none.mpr (fun p hp => by simp [hnokey p hp])
  have hallow : (canJoinMeeting st now mid (some uid)).1.allowed = true := by
    by_contra hfalse
    have hfb : (canJoinMeeting st now mid (some uid)).1.allowed = false :=
      Bool.eq_false_iff.mpr hfalse
    have hden := joinMeeting_denied st now mid uid name role
      (canJoinMeeting st now mid (some uid)).1
      (canJoinMeeting st now mid (some uid)).2 rfl hfb
    rw [hden] at hjoin
    obtain ⟨hr, -⟩ := Prod.ext_iff.mp (Option.some.inj hjoin)
    dsimp only at hr
    rw [← hr] at hsucc
    simp at hsucc
  obtain ⟨-, m, hfind, hstat, hexpF, hcap⟩ :=
    canJoin_allowed_inv st now mid (some uid) hallow
  have hfwd := joinMeeting_new_participant st now mid uid name role m
    hfind hstat hexpF hcap hnone
  rw [hfwd] at hjoin
  obtain ⟨hr1, hst1⟩ := Prod.ext_iff.mp (Option.some.inj hjoin)
  dsimp only at hr1 hst1
  have hst2p : (if (m.status == "created" || m.status == "scheduled") = true then
      meetingRepoUpdateStatus st now mid "active" none
    else st).participants = st.participants := by
    split
    · exact meetingRepoUpdateStatus_participants st now mid "active" none
    · rfl
  have hst1p : st1.participants = st.participants ++
      [participantPreSave
        { meetingId := mid, appId := m.appId, userId := uid, name := name,
          role := role, status := "joined", joinedAt := now,
          connectedAt := none, leftAt := none, durationSeconds := 0 }] := by
    rw [← hst1]
    unfold participantRepoAdd
    dsimp only
    rw [hst2p]
  have hkeyP : participantKey mid uid
      (participantPreSave
        { meetingId := mid, appId := m.appId, userId := uid, name := name,
          role := role, status := "joined", joinedAt := now,
          connectedAt := none, leftAt := none, durationSeconds := 0 }) = true := by
    simp [participantPreSave, participantKey]
  have hc1 : (st1.participants.filter (participantKey mid uid)).length = 1 := by
    rw [hst1p, List.filter_append, hfilterNil]
    simp [hkeyP]
  have hm2 : ∃ m2, findByMeetingId st1 mid = some m2 ∧ m2.status = "active"
      ∧ m2.expiresAt = m.expiresAt ∧ m2.settings = m.settings := by
    by_cases hcs : (m.status == "created" || m.status == "scheduled") = true
    · refine ⟨{ m with status := "active", startedAt := some now }, ?_, rfl, rfl, rfl⟩
      have hmeet : st1.meetings =
          (meetingRepoUpdateStatus st now mid "active" none).meetings := by
        rw [← hst1]
        rw [participantRepoAdd_meetings, if_pos hcs]
      have hcg := findByMeetingId_congr_meetings st1
        (meetingRepoUpdateStatus st now mid "active" none) mid (by rw [hmeet])
      rw [hcg, findByMeetingId_update, hfind]
      rfl
    · refine ⟨m, ?_, ?_, rfl, rfl⟩
      · have hmeet : st1.meetings = st.meetings := by
          rw [← hst1]
          rw [participantRepoAdd_meetings, if_neg hcs]
        rw [findByMeetingId_congr_meetings st1 st mid hmeet]
        exact hfind
      · have hmem : m.status ∈ validJoinStatuses := by
          simpa using hstat
        simp only [validJoinStatuses, List.mem_cons, List.mem_singleton] at hmem
        rcases hmem with h1 | h1 | h1
        · exact absurd (by simp [h1]) hcs
        · exact absurd (by simp [h1]) hcs
        · simpa using h1
  obtain ⟨m2, hfind1, hm2stat, hm2exp, hm2set⟩ := hm2
  have hstat1 : validJoinStatuses.contains m2.status = true := by
    rw [hm2stat]
    rfl
  have hexp1 : meetingExpired now m2 = false := by
    rw [meetingExpired_congr now m2 m hm2exp]
    exact hexpF
  have hactiveEq : (getActiveInMeeting st1 mid).filter (fun p => p.userId != uid)
      = (getActiveInMeeting st mid).filter (fun p => p.userId != uid) := by
    unfold getActiveInMeeting
    rw [hst1p, List.filter_append, List.filter_append]
    simp [participantPreSave]
  have hcap1 : canJoinCapacityCheck st1 m2 mid (some uid) =
      { allowed := true, reason := none } := by
    rw [capacityCheck_congr_settings st1 m2 m mid (some uid) (by rw [hm2set]),
      capacityCheck_congr_store st1 st m mid uid hactiveEq]
    exact hcap
  have hsome1 : (st1.participants.find? (participantKey mid uid)).isSome = true := by
    rw [hst1p, find?_append_of_forall_not _ _ _ hnokey]
    simp [hkeyP, List.find?_cons]
  have hfwd2 := joinMeeting_rejoin st1 now mid uid name role m2
    hfind1 hstat1 hexp1 hcap1 hsome1
  have hcs2 : ¬ ((m2.status == "created" || m2.status == "scheduled") = true) := by
    rw [hm2stat]
    decide
  rw [if_neg hcs2] at hfwd2
  have hupd : updateFirst (participantKey mid uid)
      (participantApplyStatus now "joined" none)
      [participantPreSave
        { meetingId := mid, appId := m.appId, userId := uid, name := name,
          role := role, status := "joined", joinedAt := now,
          connectedAt := none, leftAt := none, durationSeconds := 0 }] =
      [participantPreSave
        { meetingId := mid, appId := m.appId, userId := uid, name := name,
          role := role, status := "joined", joinedAt := now,
          connectedAt := none, leftAt := none, durationSeconds := 0 }] := by
    rw [updateFirst, if_pos hkeyP]
    rfl
  have hst2same : (participantRepoUpdateStatus st1 now mid uid "joined"
      none).participants = st1.participants := by
    unfold participantRepoUpdateStatus
    dsimp only
    rw [hst1p, updateFirst_append_of_forall_not _ _ _ _ hnokey, hupd, ← hst1p]
  refine ⟨hc1, participantRepoUpdateStatus st1 now mid uid "joined" none,
    hfwd2, ?_, ?_⟩
  · rw [hst2same]
    exact hc1
  · rw [hst2same, hst1p, find?_append_of_forall_not _ _ _ hnokey]
    have hkeyP2 : participantKey mid uid
        { meetingId := mid, appId := m.appId, userId := uid, name := name,
          role := role, status := "joined", joinedAt := now,
          connectedAt := none, leftAt := none, durationSeconds := 0 } = true := by
      simp [participantKey]
    simp [List.find?_cons, participantPreSave, hkeyP2]

/-- Witness for C3: the fixture store holds no record for alice; her first
join succeeds producing exactly one record, and the second join keeps the
single record with status joined. -/
theorem C3_join_idempotent_witness :
    ((c4StoreOne.participants.filter (participantKey "abc-1234-xyz" "alice")).length = 1
    ∧ ∃ st2, joinMeeting c4StoreOne 0 "abc-1234-xyz" "alice" "Alice" "participant" =
        some ({ success := true, allowed := none, reason := none }, st2)
      ∧ (st2.participants.filter (participantKey "abc-1234-xyz" "alice")).length = 1
      ∧ (st2.participants.find? (participantKey "abc-1234-xyz" "alice")).map
          (fun p => p.status) = some "joined") :=
  C3_join_idempotent fixtureStore 0 "abc-1234-xyz" "alice" "Alice" "participant"
    { success := true, allowed := none, reason := none } c4StoreOne
    (by decide) rfl (by decide)

/- ### Claim C8 -/

theorem dispatchLoop_single_delivery (respond : Nat → Option Nat) :
    ∀ (sched : List Nat) (attempt : Nat),
      (dispatchLoop respond sched attempt).2 = true →
      ∃ pre last, (dispatchLoop respond sched attempt).1 = pre ++ [last]
        ∧ (∀ x ∈ pre, x.2.map resOk ≠ some true)
        ∧ last.2.map resOk = some true := by
  intro sched
  induction sched with
  | nil =>
    intro attempt h
    simp [dispatchLoop] at h
  | cons w rest ih =>
    intro attempt h
    unfold dispatchLoop at h ⊢
    dsimp only at h ⊢
    cases hr : respond attempt with
    | some s =>
      rw [hr] at h
      dsimp only at h ⊢
      by_cases hok : resOk s = true
      · rw [if_pos hok] at h ⊢
        exact ⟨[], (if 0 < attempt then w else 0, some s), rfl,
          by intro x hx; exact absurd hx (List.not_mem_nil x),
          by simp [hok]⟩
      · rw [if_neg hok] at h ⊢
        obtain ⟨pre, last, hsplit, hpre, hlast⟩ := ih (attempt + 1) h
        refine ⟨(if 0 < attempt then w else 0, some s) :: pre, last, ?_, ?_, hlast⟩
        · rw [List.cons_append, hsplit]
        · intro x hx
          rcases List.mem_cons.mp hx with rfl | hx2
          · simp [Bool.eq_false_iff.mpr hok]
          · exact hpre x hx2
    | none =>
      rw [hr] at h
      dsimp only at h ⊢
      obtain ⟨pre, last, hsplit, hpre, hlast⟩ := ih (attempt + 1) h
      refine ⟨(if 0 < attempt then w else 0, none) :: pre, last, ?_, ?_, hlast⟩
      · rw [List.cons_append, hsplit]
      · intro x hx
        rcases List.mem_cons.mp hx with rfl | hx2
        · simp
        · exact hpre x hx2

/-- Claim C8: the X-Signature header of a webhook dispatch is sha256=
followed by the HMAC of timestamp, a dot, and the JSON body, keyed by the
effective subscription secret; against an endpoint answering 500 on the
first three attempts and 200 on the fourth, the attempts follow the
configured delays 0s, 30s, 120s, 600s (the 1800s slot is never reached),
ending in exactly one delivered 2xx; and in general a delivered dispatch
ends at its first 2xx response, with no attempts after it. -/
theorem C8_webhook_signature_retry :
    (∀ (hmac : String → String → String) (app : WebhookApp)
        (defaultSecret event timestamp payloadJson : String),
      (dispatchHeaders hmac app defaultSecret event timestamp
        payloadJson).signature =
        "sha256=" ++ hmac (timestamp ++ "." ++ payloadJson)
          (effectiveSecret app defaultSecret))
    ∧ dispatchWebhookAttempts (fun n => if n < 3 then some 500 else some 200) =
        ([(0, some 500), (30, some 500), (120, some 500), (600, some 200)], true)
    ∧ (∀ respond sched attempt,
        (dispatchLoop respond sched attempt).2 = true →
        ∃ pre last, (dispatchLoop respond sched attempt).1 = pre ++ [last]
          ∧ (∀ x ∈ pre, x.2.map resOk ≠ some true)
          ∧ last.2.map resOk = some true) :=
  ⟨fun _ _ _ _ _ _ => rfl, by decide, dispatchLoop_single_delivery⟩

/-- Witness for C8: a dispatch whose first attempt returns 204 is delivered,
and its attempt log is a single 2xx entry with nothing after it. -/
theorem C8_webhook_signature_retry_witness :
    (dispatchLoop (fun _ => some 204) [0, 30] 0).2 = true
    ∧ ∃ pre last, (dispatchLoop (fun _ => some 204) [0, 30] 0).1 = pre ++ [last]
      ∧ (∀ x ∈ pre, x.2.map resOk ≠ some true)
      ∧ last.2.map resOk = some true :=
  ⟨rfl, C8_webhook_signature_retry.2.2 (fun _ => some 204) [0, 30] 0 rfl⟩

/- ### Claim C9 -/

/-- Claim C9 names the intended behavior (the Participant model documents
durationSeconds as calculated when the participant leaves, through the
pre-save hook), but the code paths that set leftAt go through
findOneAndUpdate and updateMany, which do not run the pre-save hook: after
a leave at 5000 ms of a participant joined at 0 ms the record holds
leftAt 5000 with durationSeconds still 0, and markAllLeft behaves the same,
while the hook itself would have computed 5 seconds on a save. -/
theorem C9_duration_not_recomputed :
    ((leaveMeeting
        { meetings := [fixtureMeeting], participants := [fixtureParticipant] }
        5000 "abc-1234-xyz" "alice").2.participants.map
      (fun p => (p.status, p.leftAt, p.durationSeconds))) =
      [("left", some 5000, 0)]
    ∧ ((markAllLeft
        { meetings := [fixtureMeeting], participants := [fixtureParticipant] }
        7000 "abc-1234-xyz").participants.map
      (fun p => (p.status, p.leftAt, p.durationSeconds))) =
      [("left", some 7000, 0)]
    ∧ participantPreSave { fixtureParticipant with leftAt := some 5000 } =
        { fixtureParticipant with leftAt := some 5000, durationSeconds := 5 }
    ∧ (0 : Int) ≠ 5 := by decide

end Chamcall
